import Mathlib

/-!
Verification of the lbs serialization crate (crates `lbs` and `lbs_derive`).

The development shallowly embeds the wire codec of `src/lbs/src/read.rs`,
`src/lbs/src/write.rs`, `src/lbs/src/error.rs` and the code generated by
`src/lbs_derive/src/lib.rs`.  Byte streams are lists of naturals (one per
byte), readers are functions consuming a prefix of the stream, and fallible
operations return `Except LBSError`.
-/

/-- A wire byte stream: one natural number per byte. -/
abbrev Bytes := List Nat

/-- `src/lbs/src/error.rs`: the closed error taxonomy `LBSError`.  The `Io`
variant of the source carries a `std::io::Error`; the only io failure the
codec itself produces is the `UnexpectedEof` of `read_exact` on a truncated
stream, modelled as `IoEof`. -/
inductive LBSError where
  | RequiredButMissing : LBSError
  | UnexpectedVariant : LBSError
  | InvalidTimestamp : LBSError
  | InvalidChar : LBSError
  | IoEof : LBSError
  | Parsing : String → LBSError
  | WithField : Nat → LBSError → LBSError
deriving Repr, DecidableEq

/-- `src/lbs/src/error.rs` lines 30-35: `LBSError::with_field`.  An error
already tagged with a field keeps its original tag (first wrap wins). -/
def LBSError.with_field : LBSError → Nat → LBSError
  | e@(.WithField _ _), _ => e
  | e, i => .WithField i e

/-- A decoding step: consumes a prefix of the stream and returns the value
plus the remaining bytes, or an error.  Models `fn(&mut R) -> Result<T>`
over an in-memory byte source. -/
abbrev LbsReader (α : Type) := Bytes → Except LBSError (α × Bytes)

/-- `Read::read_exact` over a byte slice: yields the first `n` bytes and the
rest, or `UnexpectedEof` when fewer than `n` bytes remain. -/
def read_exact (n : Nat) : LbsReader Bytes := fun input =>
  if n ≤ input.length then .ok (input.take n, input.drop n) else .error .IoEof

/-- Little-endian reconstruction of an unsigned integer from its bytes
(`<int>::from_le_bytes`). -/
def from_le_bytes (bs : Bytes) : Nat :=
  bs.foldr (fun b acc => b + 256 * acc) 0

/-- Little-endian byte representation of an unsigned integer on `w` bytes
(`<int>::to_le_bytes`; the value is reduced modulo `256 ^ w` like the fixed
width machine integer it models). -/
def to_le_bytes : Nat → Nat → Bytes
  | 0, _ => []
  | w + 1, n => n % 256 :: to_le_bytes w (n / 256)

/-- `src/lbs/src/read.rs` lines 24-35, `impl_read_primitive!($t, $l)`: read
exactly `l` bytes and rebuild the value with `from_le_bytes`. -/
def read_primitive (l : Nat) : LbsReader Nat := fun input =>
  match read_exact l input with
  | .ok (bs, rest) => .ok (from_le_bytes bs, rest)
  | .error e => .error e

/-- `src/lbs/src/write.rs` lines 21-35, `impl_write_primitive!`: write the
little-endian bytes of the value. -/
def write_primitive (w n : Nat) : Bytes := to_le_bytes w n

/-- `src/lbs/src/read.rs` lines 320-323: `read_field_count` is a `u16` read. -/
def read_field_count : LbsReader Nat := read_primitive 2

/-- `src/lbs/src/read.rs` lines 325-328: `read_field_id` is a `u16` read. -/
def read_field_id : LbsReader Nat := read_primitive 2

/-- `src/lbs/src/write.rs` lines 369-372: `write_field_count` writes a `u16`. -/
def write_field_count (n : Nat) : Bytes := write_primitive 2 n

/-- `src/lbs/src/write.rs` lines 374-377: `write_field_id` writes a `u16`. -/
def write_field_id (i : Nat) : Bytes := write_primitive 2 i

/-- `src/lbs/src/read.rs` lines 75-82: `impl LBSRead for bool` — read one
byte and compare it with `1`. -/
def bool_lbs_read : LbsReader Bool := fun input =>
  match read_exact 1 input with
  | .ok (bs, rest) => .ok (from_le_bytes bs == 1, rest)
  | .error e => .error e

/-- `src/lbs/src/write.rs` lines 81-95: `impl LBSWrite for bool`. -/
def bool_lbs_write (b : Bool) : Bytes :=
  if b then write_primitive 1 1 else write_primitive 1 0

/-- `src/lbs/src/read.rs` lines 201-212: `impl LBSRead for Option<T>` — read
one presence byte; decode the payload only when the byte equals `1`,
otherwise yield `None` without consuming anything further. -/
def option_lbs_read {α : Type} (rd : LbsReader α) : LbsReader (Option α) := fun input =>
  match read_exact 1 input with
  | .error e => .error e
  | .ok (bs, rest) =>
    if from_le_bytes bs == 1 then
      match rd rest with
      | .ok (v, rest2) => .ok (some v, rest2)
      | .error e => .error e
    else .ok (none, rest)

/-- `src/lbs/src/write.rs` lines 270-285: `impl LBSWrite for Option<T>`. -/
def option_lbs_write {α : Type} (wr : α → Bytes) : Option α → Bytes
  | some v => write_primitive 1 1 ++ wr v
  | none => write_primitive 1 0

/-!  Platform sized integers (claim C8).  `usize::to_le_bytes` yields
`size_of::<usize>()` bytes, so the number of bytes written by
`impl_write_primitive!(usize)` is the host word size.  The read side
(`impl_read_primitive!(usize, 8)` and `(isize, 8)`) fills an `8`-byte buffer
and passes it to `from_le_bytes`, which only typechecks on hosts whose word
is 8 bytes. -/

/-- `src/lbs/src/write.rs` line 57, `impl_write_primitive!(usize)`:
`usize::to_le_bytes` produces one byte per byte of the host word. -/
def usize_lbs_write (wordBytes : Nat) (v : Nat) : Bytes := to_le_bytes wordBytes v

/-- `src/lbs/src/read.rs` line 41, `impl_read_primitive!(usize, 8)`. -/
def usize_lbs_read : LbsReader Nat := read_primitive 8

/-- The `usize` read impl feeds a `[0u8; 8]` buffer to
`usize::from_le_bytes : [u8; size_of::<usize>()] -> usize`; the crate
therefore only compiles on hosts whose word size is 8 bytes. -/
def usize_read_compiles (wordBytes : Nat) : Prop := wordBytes = 8

/-- Value of a 64-bit two's-complement bit pattern. -/
def i64_of_bits (n : Nat) : Int :=
  if n < 2 ^ 63 then (n : Int) else (n : Int) - 2 ^ 64

/-- `src/lbs/src/read.rs` line 48, `impl_read_primitive!(isize, 8)`: read
exactly 8 bytes and interpret them as a two's-complement value. -/
def isize_lbs_read : LbsReader Int := fun input =>
  match read_exact 8 input with
  | .ok (bs, rest) => .ok (i64_of_bits (from_le_bytes bs), rest)
  | .error e => .error e

/-- Modelled from the spec: the `LBSWrite` impl for `isize` is absent from
`src/lbs/src/write.rs` (its caller `src/test/src/lib.rs` serializes an
`isize` field), so it is modelled from spec §6: a platform-sized integer
kind is always written as exactly 8 little-endian bytes (two's complement
for the signed kind). -/
def isize_lbs_write (v : Int) : Bytes := to_le_bytes 8 (v.emod (2 ^ 64)).toNat

/-!  Is-default predicates of `src/lbs/src/write.rs` (claim C5). -/

/-- `src/lbs/src/write.rs` lines 29-32: numeric `lbs_is_default` is `== 0`. -/
def u64_is_default (v : Nat) : Bool := v == 0

/-- `src/lbs/src/write.rs` lines 281-284: `Option::lbs_is_default` is
`is_none`. -/
def option_is_default {α : Type} (o : Option α) : Bool := o.isNone

/-- `src/lbs/src/write.rs` lines 228-231: `Box::lbs_is_default` delegates to
the wrapped value: `(**self).lbs_is_default()`. -/
def box_is_default {α : Type} (inner : α → Bool) (v : α) : Bool := inner v

/-- `src/lbs/src/write.rs` lines 240-243: `Rc::lbs_is_default` delegates. -/
def rc_is_default {α : Type} (inner : α → Bool) (v : α) : Bool := inner v

/-- `src/lbs/src/write.rs` lines 252-255: `Arc::lbs_is_default` delegates. -/
def arc_is_default {α : Type} (inner : α → Bool) (v : α) : Bool := inner v

/-- `src/lbs/src/write.rs` lines 264-267: `Cow::lbs_is_default` delegates. -/
def cow_is_default {α : Type} (inner : α → Bool) (v : α) : Bool := inner v

/-- `src/lbs/src/write.rs` lines 216-219: `Range::lbs_is_default` is
`Range::is_empty`, i.e. `!(start < end)`, here at element type `u64`. -/
def range_is_default (st en : Nat) : Bool := ! decide (st < en)

/-- `src/lbs/src/write.rs` lines 209-214: `Range::lbs_write` writes start
then end with no framing. -/
def range_lbs_write (st en : Nat) : Bytes := write_primitive 8 st ++ write_primitive 8 en

/-!  The tagged record codec generated by `src/lbs_derive/src/lib.rs`.

The derive runs once per type and emits straight-line code; the embedding
keeps the schema as an explicit list of per-field closures, one entry per
declared field, in declaration order.  Skipped fields get no match arm in
the generated `lbs_read` and no write/count expression in `lbs_write`;
here they stay in the list carrying their `skip` flag and are filtered
exactly where the codegen filters them.

In the generated reader, `required_present` is an array indexed by the
ordinal of a field among the required fields, set when that field's match
arm runs.  Field ids are unique within a schema (enforced by
`gather_struct_meta`), so the array is equivalently represented by the list
of required field ids already seen. -/

/-- One field of a record schema as consumed by the generated `lbs_read`:
its wire id, its required flag, and the decode-and-assign closure of its
match arm (`_self.field = lbs::read::read(r)?`). -/
structure RField (S : Type) where
  id : Nat
  required : Bool
  skip : Bool
  read : S → LbsReader S

/-- One field of a record schema as consumed by the generated `lbs_write`:
its wire id, its skip flag, the must-write test and the value writer.

The generated code calls `lbs_must_write()`, whose impls are absent from
`src/lbs/src/write.rs` (which still declares `lbs_is_default`); per spec
§4.3 a field is written iff its current value is not default, so concrete
schemas below instantiate `must_write` with the negation of the is-default
predicate of the field's type. -/
structure WField (S : Type) where
  id : Nat
  skip : Bool
  must_write : S → Bool
  write : S → Except LBSError Bytes

/-- The match performed on a decoded field id: only non-skipped fields have
match arms (`meta.iter().filter(|f| !f.skip)` in
`generate_read_body_for_struct`). -/
def find_active {S : Type} (fields : List (RField S)) (fid : Nat) : Option (RField S) :=
  (fields.filter (fun f => !f.skip)).find? (fun f => f.id == fid)

/-- The pair-reading loop of the generated `lbs_read`
(`src/lbs_derive/src/lib.rs` lines 400-405): `n` times, read a field id;
a known non-skipped id decodes the value into the struct (errors wrapped
with `with_field`) and, if the field is required, marks it seen; an unknown
id does nothing. -/
def read_pairs {S : Type} (fields : List (RField S)) :
    Nat → S → List Nat → Bytes → Except LBSError (S × List Nat × Bytes)
  | 0, s, seen, input => .ok (s, seen, input)
  | n + 1, s, seen, input =>
    match read_field_id input with
    | .error e => .error e
    | .ok (fid, rest) =>
      match find_active fields fid with
      | none => read_pairs fields n s seen rest
      | some f =>
        match f.read s rest with
        | .error e => .error (e.with_field fid)
        | .ok (s2, rest2) =>
          read_pairs fields n s2 (if f.required then fid :: seen else seen) rest2

/-- The required check of the generated `lbs_read`
(`src/lbs_derive/src/lib.rs` lines 379-390): for each required field in
declaration order, fail with `RequiredButMissing.with_field(id)` if it was
not seen. -/
def check_required {S : Type} : List (RField S) → List Nat → Except LBSError Unit
  | [], _ => .ok ()
  | f :: fs, seen =>
    if f.required && !(seen.contains f.id) then
      .error (LBSError.RequiredButMissing.with_field f.id)
    else check_required fs seen

/-- The full generated `lbs_read` of a record
(`generate_read_body_for_struct`): materialize the defaults, read the field
count, consume that many pairs, then enforce required fields. -/
def record_read {S : Type} (fields : List (RField S)) (init : S) : LbsReader S := fun input =>
  match read_field_count input with
  | .error e => .error e
  | .ok (n, rest) =>
    match read_pairs fields n init [] rest with
    | .error e => .error e
    | .ok (s, seen, rest2) =>
      match check_required fields seen with
      | .error e => .error e
      | .ok _ => .ok (s, rest2)

/-- The per-field write expressions of the generated `lbs_write`
(`src/lbs_derive/src/lib.rs` lines 272-281): for each non-skipped field
with `lbs_must_write()`, write its id then its value. -/
def write_pairs {S : Type} (s : S) : List (WField S) → Except LBSError Bytes
  | [] => .ok []
  | f :: fs =>
    if f.must_write s then
      match f.write s with
      | .error e => .error e
      | .ok vb =>
        match write_pairs s fs with
        | .error e => .error e
        | .ok rest => .ok (write_field_id f.id ++ vb ++ rest)
    else write_pairs s fs

/-- The full generated `lbs_write` of a record
(`generate_write_body_for_struct`): count the non-skipped must-write
fields, write the count as a `u16`, then (when positive) the pairs in
declaration order. -/
def record_write {S : Type} (fields : List (WField S)) (s : S) : Except LBSError Bytes :=
  let active := fields.filter (fun f => !f.skip)
  let n := (active.filter (fun f => f.must_write s)).length
  if 0 < n then
    match write_pairs s active with
    | .error e => .error e
    | .ok body => .ok (write_field_count n ++ body)
  else .ok (write_field_count n)

/-!  The schema generator of `src/lbs_derive/src/lib.rs` (claims C6, C7).
Attribute parsing itself is out of scope; a declaration arrives already
parsed as the data `Meta::from_struct_field` extracts from it. -/

/-- A declared struct field as seen by `Meta::from_struct_field`: the
optional explicit `#[lbs(id(..))]`, the `skip` and `optional` flags,
whether a `default(expr)` is present, and whether the declared value type
is an `Option<..>` (the `field_type.starts_with("Option <")` tests of
lines 100-106). -/
structure FieldDecl where
  explicitId : Option Nat
  skip : Bool
  optional : Bool
  hasDefault : Bool
  typeIsOption : Bool
deriving Repr, DecidableEq

/-- The generated meta of one field after validation. -/
structure StructMeta where
  id : Nat
  required : Bool
  skip : Bool
  hasDefault : Bool
deriving Repr, DecidableEq

/-- `src/lbs_derive/src/lib.rs` lines 102-106: the required classification.
`required = !skip && !optional && !(type is Option)`; the presence of a
`default(expr)` plays no part in it. -/
def meta_required (d : FieldDecl) : Bool :=
  !d.skip && !d.optional && !d.typeIsOption

/-- The panic message of `Meta::validated` (lines 173-182), after
formatting. -/
def no_id_message : String :=
  "struct field or enum variant must have an id: #[lbs(id(<u16>))]"

/-- `Meta::from_struct_field` followed by `Meta::validated`: compute the
required flag, then reject the declaration (the source panics) when no
explicit id was given. -/
def from_struct_field (d : FieldDecl) : Except String StructMeta :=
  match d.explicitId with
  | none => .error no_id_message
  | some i => .ok ⟨i, meta_required d, d.skip, d.hasDefault⟩

/-- The loop body of `gather_struct_meta` (lines 442-458): build each meta
and reject duplicated ids via the `unique_ids` set. -/
def gather_go : List FieldDecl → List Nat → Except String (List StructMeta)
  | [], _ => .ok []
  | d :: ds, used =>
    match from_struct_field d with
    | .error e => .error e
    | .ok m =>
      if used.contains m.id then .error ("duplicated id " ++ toString m.id)
      else
        match gather_go ds (m.id :: used) with
        | .error e => .error e
        | .ok ms => .ok (m :: ms)

/-- `src/lbs_derive/src/lib.rs` lines 442-458: `gather_struct_meta`. -/
def gather_struct_meta (ds : List FieldDecl) : Except String (List StructMeta) :=
  gather_go ds []

/-!  Concrete schemas.  `MessageV1` and `MessageV2` are the schema-evolution
pair of `src/test/src/lib.rs` lines 283-299: `MessageV1 { f0: u64,
f1: Option<u64> }` and `MessageV2` adding the required field `f2: u64` with
id 2.  Their codecs instantiate the generic record codec exactly as the
derive would emit them. -/

structure MessageV1 where
  f0 : Nat
  f1 : Option Nat
deriving Repr, DecidableEq

structure MessageV2 where
  f0 : Nat
  f1 : Option Nat
  f2 : Nat
deriving Repr, DecidableEq

/-- Match arm of `MessageV1.f0` (a required `u64` field, id 0). -/
def m1_rd_f0 : MessageV1 → LbsReader MessageV1 := fun s input =>
  match read_primitive 8 input with
  | .ok (v, rest) => .ok ({ s with f0 := v }, rest)
  | .error e => .error e

/-- Match arm of `MessageV1.f1` (an `Option<u64>` field, id 1). -/
def m1_rd_f1 : MessageV1 → LbsReader MessageV1 := fun s input =>
  match option_lbs_read (read_primitive 8) input with
  | .ok (v, rest) => .ok ({ s with f1 := v }, rest)
  | .error e => .error e

/-- The read schema of `MessageV1`: f0 is required (`u64`, no modifier),
f1 is optional (`Option` type). -/
def MessageV1_read_fields : List (RField MessageV1) :=
  [⟨0, true, false, m1_rd_f0⟩, ⟨1, false, false, m1_rd_f1⟩]

/-- The write schema of `MessageV1`; `must_write` is the negation of each
type's is-default predicate (see `WField`). -/
def MessageV1_write_fields : List (WField MessageV1) :=
  [⟨0, false, fun s => !u64_is_default s.f0, fun s => .ok (write_primitive 8 s.f0)⟩,
   ⟨1, false, fun s => !option_is_default s.f1,
     fun s => .ok (option_lbs_write (write_primitive 8) s.f1)⟩]

/-- Generated `MessageV1::lbs_write`. -/
def messageV1_write (v : MessageV1) : Except LBSError Bytes :=
  record_write MessageV1_write_fields v

/-- Generated `MessageV1::lbs_read` (defaults: `u64 = 0`,
`Option = None`). -/
def messageV1_read : LbsReader MessageV1 :=
  record_read MessageV1_read_fields ⟨0, none⟩

/-- Match arm of `MessageV2.f0`. -/
def m2_rd_f0 : MessageV2 → LbsReader MessageV2 := fun s input =>
  match read_primitive 8 input with
  | .ok (v, rest) => .ok ({ s with f0 := v }, rest)
  | .error e => .error e

/-- Match arm of `MessageV2.f1`. -/
def m2_rd_f1 : MessageV2 → LbsReader MessageV2 := fun s input =>
  match option_lbs_read (read_primitive 8) input with
  | .ok (v, rest) => .ok ({ s with f1 := v }, rest)
  | .error e => .error e

/-- Match arm of `MessageV2.f2` (required `u64`, id 2). -/
def m2_rd_f2 : MessageV2 → LbsReader MessageV2 := fun s input =>
  match read_primitive 8 input with
  | .ok (v, rest) => .ok ({ s with f2 := v }, rest)
  | .error e => .error e

/-- The read schema of `MessageV2`: f0 and f2 required, f1 optional. -/
def MessageV2_read_fields : List (RField MessageV2) :=
  [⟨0, true, false, m2_rd_f0⟩, ⟨1, false, false, m2_rd_f1⟩, ⟨2, true, false, m2_rd_f2⟩]

/-- Generated `MessageV2::lbs_read`. -/
def messageV2_read : LbsReader MessageV2 :=
  record_read MessageV2_read_fields ⟨0, none, 0⟩

/-- `MessageV2` variant whose `f2` carries `#[lbs(default(7))]`: the
default expression only changes the field initialization of `lbs_read`
(`field_init_expressions`), not the schema (claim C7). -/
def messageV2_default_read : LbsReader MessageV2 :=
  record_read MessageV2_read_fields ⟨0, none, 7⟩

/-!  A record holding an ownership-wrapped field and a range field
(claim C5): `BoxRangeMsg { b: Box<u64> (id 0), r: Range<u64> (id 1) }`.
`Box` is wire-transparent, so its in-memory payload is modelled directly. -/

structure BoxRangeMsg where
  b : Nat
  rs : Nat
  re : Nat
deriving Repr, DecidableEq

/-- The write schema of `BoxRangeMsg`: must-write is the negation of the
`lbs_is_default` impls of `Box<u64>` and `Range<u64>`. -/
def BoxRangeMsg_write_fields : List (WField BoxRangeMsg) :=
  [⟨0, false, fun s => !box_is_default u64_is_default s.b,
     fun s => .ok (write_primitive 8 s.b)⟩,
   ⟨1, false, fun s => !range_is_default s.rs s.re,
     fun s => .ok (range_lbs_write s.rs s.re)⟩]

/-- Generated `BoxRangeMsg::lbs_write`. -/
def boxRangeMsg_write (v : BoxRangeMsg) : Except LBSError Bytes :=
  record_write BoxRangeMsg_write_fields v

/-!  A tagged union with and without payload (claim C1):
`EnumE { A (id 0), B(u64) (id 1) }`, codecs as emitted by
`generate_write_body_for_enum` / `generate_read_body_for_enum`. -/

inductive EnumE where
  | A : EnumE
  | B : Nat → EnumE
deriving Repr, DecidableEq

/-- Generated `EnumE::lbs_write`: the variant id as a `u16`, then the
payload encoding if the variant carries one. -/
def enumE_write : EnumE → Bytes
  | .A => write_field_id 0
  | .B v => write_field_id 1 ++ write_primitive 8 v

/-- Generated `EnumE::lbs_read`: one variant id, then the payload for a
payload-carrying variant; an unknown id fails with `UnexpectedVariant`. -/
def enumE_read : LbsReader EnumE := fun input =>
  match read_field_id input with
  | .error e => .error e
  | .ok (t, rest) =>
    if t == 0 then .ok (.A, rest)
    else if t == 1 then
      match read_primitive 8 rest with
      | .ok (v, rest2) => .ok (.B v, rest2)
      | .error e => .error e
    else .error .UnexpectedVariant

/-- Round-trip of a `MessageV1` value through the codec. -/
def messageV1_roundtrip (v : MessageV1) : Except LBSError (MessageV1 × Bytes) :=
  match messageV1_write v with
  | .ok bs => messageV1_read bs
  | .error e => .error e

/-!  Helper lemmas about the byte-level primitives. -/

theorem to_le_bytes_length (w : Nat) : ∀ n, (to_le_bytes w n).length = w := by
  induction w with
  | zero => intro n; rfl
  | succ w ih => intro n; simp [to_le_bytes, ih]

theorem from_le_bytes_nil : from_le_bytes [] = 0 := rfl

theorem from_le_bytes_cons (b : Nat) (bs : Bytes) :
    from_le_bytes (b :: bs) = b + 256 * from_le_bytes bs := rfl

theorem from_le_to_le (w : Nat) : ∀ n, n < 256 ^ w → from_le_bytes (to_le_bytes w n) = n := by
  induction w with
  | zero =>
    intro n h
    have : n = 0 := Nat.lt_one_iff.mp (by simpa using h)
    simp [this, to_le_bytes, from_le_bytes]
  | succ w ih =>
    intro n h
    have hdiv : n / 256 < 256 ^ w := by
      apply Nat.div_lt_of_lt_mul
      calc n < 256 ^ (w + 1) := h
        _ = 256 * 256 ^ w := by ring
    calc from_le_bytes (to_le_bytes (w + 1) n)
        = n % 256 + 256 * from_le_bytes (to_le_bytes w (n / 256)) := by
          simp [to_le_bytes, from_le_bytes_cons]
      _ = n % 256 + 256 * (n / 256) := by rw [ih _ hdiv]
      _ = n := Nat.mod_add_div n 256

theorem read_exact_append (w : Nat) (bs rest : Bytes) (h : bs.length = w) :
    read_exact w (bs ++ rest) = .ok (bs, rest) := by
  subst h
  simp [read_exact, List.take_left, List.drop_left]

theorem read_exact_short (w : Nat) (input : Bytes) (h : input.length < w) :
    read_exact w input = .error .IoEof := by
  simp [read_exact, Nat.not_le.mpr h]

theorem read_primitive_append (w n : Nat) (rest : Bytes) (h : n < 256 ^ w) :
    read_primitive w (to_le_bytes w n ++ rest) = .ok (n, rest) := by
  rw [read_primitive, read_exact_append w _ rest (to_le_bytes_length w n)]
  simp [from_le_to_le w n h]

theorem read_primitive_short (w : Nat) (input : Bytes) (h : input.length < w) :
    read_primitive w input = .error .IoEof := by
  rw [read_primitive, read_exact_short w input h]

theorem read_field_id_append (i : Nat) (rest : Bytes) (h : i < 2 ^ 16) :
    read_field_id (write_field_id i ++ rest) = .ok (i, rest) :=
  read_primitive_append 2 i rest (by norm_num at h ⊢; omega)

/-!  Helper lemmas about the generated record codec. -/

theorem find_active_eq_none {S : Type} (fields : List (RField S)) (fid : Nat)
    (h : ∀ f ∈ fields, f.skip = false → f.id ≠ fid) :
    find_active fields fid = none := by
  apply List.find?_eq_none.mpr
  intro f hf
  rcases List.mem_filter.mp hf with ⟨hmem, hskip⟩
  have : f.skip = false := by simpa using hskip
  simpa using h f hmem this

theorem check_required_ok {S : Type} (fields : List (RField S)) (seen : List Nat)
    (h : ∀ f ∈ fields, f.required = true → f.id ∈ seen) :
    check_required fields seen = .ok () := by
  induction fields with
  | nil => rfl
  | cons f fs ih =>
    have hcond : (f.required && !(seen.contains f.id)) = false := by
      by_cases hreq : f.required = true
      · have : f.id ∈ seen := h f (List.mem_cons_self f fs) hreq
        simp [hreq, this]
      · simp [Bool.eq_false_iff.mpr hreq]
    simp only [check_required]
    rw [hcond]
    simp only [Bool.false_eq_true, if_false]
    exact ih (fun g hg => h g (List.mem_cons_of_mem f hg))

theorem check_required_missing {S : Type} (fields : List (RField S)) (seen : List Nat)
    (h : ∃ f ∈ fields, f.required = true ∧ f.id ∉ seen) :
    ∃ g ∈ fields, g.required = true ∧ g.id ∉ seen ∧
      check_required fields seen = .error (LBSError.RequiredButMissing.with_field g.id) := by
  induction fields with
  | nil => rcases h with ⟨f, hf, _⟩; cases hf
  | cons f fs ih =>
    by_cases hmiss : f.required = true ∧ f.id ∉ seen
    · refine ⟨f, List.mem_cons_self f fs, hmiss.1, hmiss.2, ?_⟩
      have hcond : (f.required && !(seen.contains f.id)) = true := by
        simp [hmiss.1, hmiss.2]
      simp only [check_required]
      rw [hcond]
      simp
    · have htail : ∃ g ∈ fs, g.required = true ∧ g.id ∉ seen := by
        rcases h with ⟨g, hg, hreq, hid⟩
        rcases List.mem_cons.mp hg with rfl | hgs
        · exact absurd ⟨hreq, hid⟩ hmiss
        · exact ⟨g, hgs, hreq, hid⟩
      rcases ih htail with ⟨g, hg, hreq, hid, heq⟩
      refine ⟨g, List.mem_cons_of_mem f hg, hreq, hid, ?_⟩
      have hcond : (f.required && !(seen.contains f.id)) = false := by
        by_cases hreq' : f.required = true
        · have : f.id ∈ seen := by
            by_contra hnot
            exact hmiss ⟨hreq', hnot⟩
          simp [this]
        · simp [Bool.eq_false_iff.mpr hreq']
      simp only [check_required]
      rw [hcond]
      simp only [Bool.false_eq_true, if_false]
      exact heq

theorem write_pairs_join {S : Type} (s : S) (g : WField S → Bytes) :
    ∀ fs : List (WField S), (∀ f ∈ fs, f.must_write s = true → f.write s = .ok (g f)) →
      write_pairs s fs =
        .ok (((fs.filter (fun f => f.must_write s)).map
          (fun f => write_field_id f.id ++ g f)).flatten) := by
  intro fs
  induction fs with
  | nil => intro _; rfl
  | cons f fs ih =>
    intro h
    by_cases hm : f.must_write s = true
    · have hw : f.write s = .ok (g f) := h f (List.mem_cons_self f fs) hm
      have htail := ih (fun x hx => h x (List.mem_cons_of_mem f hx))
      simp [write_pairs, hm, hw, htail]
    · have hm' : f.must_write s = false := Bool.eq_false_iff.mpr hm
      have htail := ih (fun x hx => h x (List.mem_cons_of_mem f hx))
      simp [write_pairs, hm', htail]

theorem write_pairs_none {S : Type} (s : S) (fs : List (WField S))
    (h : ∀ f ∈ fs, f.must_write s = false) : write_pairs s fs = .ok [] := by
  induction fs with
  | nil => rfl
  | cons f fs ih =>
    simp [write_pairs, h f (List.mem_cons_self f fs),
      ih (fun x hx => h x (List.mem_cons_of_mem f hx))]

/-- C9: bool decode reads exactly one byte and fails only on truncated
(empty) input; the decoded value is `true` iff the byte equals `1`, and any
other byte value decodes to `false` with no validation error. -/
theorem c9_bool_read_lenient (b : Nat) (rest : Bytes) :
    bool_lbs_read (b :: rest) = .ok (b == 1, rest) ∧
    (bool_lbs_read (b :: rest) = .ok (true, rest) ↔ b = 1) ∧
    bool_lbs_read [] = .error .IoEof := by
  have h1 : bool_lbs_read (b :: rest) = .ok (b == 1, rest) := by
    simp [bool_lbs_read, read_exact, from_le_bytes]
  refine ⟨h1, ?_, rfl⟩
  rw [h1]
  simp

/-- Witness for C9 at the concrete bytes `7` (non-`1`, decodes to `false`)
and `1` (decodes to `true`). -/
theorem c9_bool_read_lenient_witness :
    bool_lbs_read [7, 9] = .ok (false, [9]) ∧ bool_lbs_read [1] = .ok (true, []) :=
  ⟨(c9_bool_read_lenient 7 [9]).1, ((c9_bool_read_lenient 1 []).2.1).mpr rfl⟩

/-- C10: optional-value decode is lenient about the presence flag: it reads
one byte; every byte other than `1` (not just `0`) yields `None` without
consuming further bytes and without error; byte `1` decodes the wrapped
value (here shown for a `u64` payload). -/
theorem c10_option_read_lenient {α : Type} (rd : LbsReader α) (b : Nat) (rest : Bytes) :
    (b ≠ 1 → option_lbs_read rd (b :: rest) = .ok (none, rest)) ∧
    (∀ (x : Nat), x < 2 ^ 64 → ∀ tail : Bytes,
      option_lbs_read (read_primitive 8) (1 :: (write_primitive 8 x ++ tail)) =
        .ok (some x, tail)) := by
  constructor
  · intro h
    simp [option_lbs_read, read_exact, from_le_bytes, h]
  · intro x hx tail
    have hr : read_primitive 8 (write_primitive 8 x ++ tail) = .ok (x, tail) :=
      read_primitive_append 8 x tail (by norm_num at hx ⊢; omega)
    simp [option_lbs_read, read_exact, from_le_bytes, hr]

/-- Witness for C10: presence byte `2` yields `None`; presence byte `1`
decodes the payload. -/
theorem c10_option_read_lenient_witness :
    option_lbs_read (read_primitive 8) (2 :: [5]) = .ok (none, [5]) ∧
    option_lbs_read (read_primitive 8) (1 :: (write_primitive 8 3 ++ [])) = .ok (some 3, []) :=
  ⟨(c10_option_read_lenient (read_primitive 8) 2 [5]).1 (by decide),
   (c10_option_read_lenient (read_primitive 8) 2 [5]).2 3 (by norm_num) []⟩

/-- C8: on every host where the crate compiles (the `usize`/`isize` read
impls constrain the word size to 8 bytes), a platform-sized integer is
written as exactly 8 bytes and decoded by reading exactly 8 bytes: a read
succeeds on any 8-byte prefix consuming precisely those 8 bytes, and fails
with end-of-stream on shorter input. -/
theorem c8_platform_sized_8_bytes (wordBytes : Nat) (hw : usize_read_compiles wordBytes) :
    (∀ v : Nat, (usize_lbs_write wordBytes v).length = 8) ∧
    (∀ z : Int, (isize_lbs_write z).length = 8) ∧
    (∀ bs rest : Bytes, bs.length = 8 →
      usize_lbs_read (bs ++ rest) = .ok (from_le_bytes bs, rest) ∧
      isize_lbs_read (bs ++ rest) = .ok (i64_of_bits (from_le_bytes bs), rest)) ∧
    (∀ input : Bytes, input.length < 8 →
      usize_lbs_read input = .error .IoEof ∧ isize_lbs_read input = .error .IoEof) := by
  rw [usize_read_compiles] at hw
  subst hw
  refine ⟨fun v => to_le_bytes_length 8 v, fun z => to_le_bytes_length 8 _, ?_, ?_⟩
  · intro bs rest h
    constructor
    · rw [usize_lbs_read, read_primitive, read_exact_append 8 bs rest h]
    · rw [isize_lbs_read, read_exact_append 8 bs rest h]
  · intro input h
    constructor
    · exact read_primitive_short 8 input h
    · rw [isize_lbs_read, read_exact_short 8 input h]

/-- Witness for C8 at word size 8, value 5 and value -2. -/
theorem c8_platform_sized_8_bytes_witness :
    (usize_lbs_write 8 5).length = 8 ∧ (isize_lbs_write (-2)).length = 8 :=
  ⟨(c8_platform_sized_8_bytes 8 rfl).1 5, (c8_platform_sized_8_bytes 8 rfl).2.1 (-2)⟩

/-- C2: when the decoded field id matches no known, non-skipped field
descriptor, the pair loop consumes the 2-byte id and zero bytes of the
value (first conjunct), so when value bytes `vb` of an unknown field
precede further pairs, the loop resumes at `vb ++ rest` instead of the
correct position `rest` — a strictly different (misaligned) position
whenever the value is non-empty (second conjunct); an unknown id in the
last pair leaves the state and seen-set untouched (third conjunct).  The
closed conjuncts demonstrate both outcomes end to end on `MessageV1`: in
the first stream the writer put an unknown pair (id 9 with an 8-byte
value) before the pair `(0, 1)`, and the decoder — reading the next id
from inside the unknown value — returns `f0 = 0` instead of the written
`1`, leaving 8 bytes unconsumed; in the second stream the unknown pair
comes last and the declared field decodes unaffected. -/
theorem c2_unknown_field_desync {S : Type} (fields : List (RField S)) (fid : Nat)
    (hid : fid < 2 ^ 16)
    (hunknown : ∀ f ∈ fields, f.skip = false → f.id ≠ fid) :
    (∀ (n : Nat) (s : S) (seen : List Nat) (tail : Bytes),
      read_pairs fields (n + 1) s seen (write_field_id fid ++ tail) =
        read_pairs fields n s seen tail) ∧
    (∀ vb rest : Bytes, vb ≠ [] → vb ++ rest ≠ rest) ∧
    (∀ (s : S) (seen : List Nat) (junk : Bytes),
      read_pairs fields 1 s seen (write_field_id fid ++ junk) = .ok (s, seen, junk)) ∧
    (messageV1_read [2, 0, 9, 0, 0, 0, 0, 0, 0, 0, 0, 0, 0, 0, 1, 0, 0, 0, 0, 0, 0, 0] =
       .ok (⟨0, none⟩, [1, 0, 0, 0, 0, 0, 0, 0]) ∧
     messageV1_read [2, 0, 0, 0, 1, 0, 0, 0, 0, 0, 0, 0, 9, 0, 5, 5] =
       .ok (⟨1, none⟩, [5, 5])) := by
  have hstep : ∀ (n : Nat) (s : S) (seen : List Nat) (tail : Bytes),
      read_pairs fields (n + 1) s seen (write_field_id fid ++ tail) =
        read_pairs fields n s seen tail := by
    intro n s seen tail
    rw [read_pairs]
    simp only [read_field_id_append fid tail hid, find_active_eq_none fields fid hunknown]
  refine ⟨hstep, ?_, ?_, rfl, rfl⟩
  · intro vb rest hne h
    have := congrArg List.length h
    rw [List.length_append] at this
    exact hne (List.length_eq_zero.mp (by omega))
  · intro s seen junk
    rw [hstep 0 s seen junk, read_pairs]

/-- Witness for C2 on the `MessageV1` schema with unknown field id 9. -/
theorem c2_unknown_field_desync_witness :
    read_pairs MessageV1_read_fields 1 (⟨0, none⟩ : MessageV1) [] (write_field_id 9 ++ [5, 5]) =
      .ok (⟨0, none⟩, [], [5, 5]) :=
  (c2_unknown_field_desync MessageV1_read_fields 9 (by norm_num)
    (by
      intro f hf hskip
      rcases List.mem_cons.mp hf with rfl | hf2
      · decide
      · rcases List.mem_cons.mp hf2 with rfl | hf3
        · decide
        · cases hf3)).2.2.1 ⟨0, none⟩ [] [5, 5]

/-- C3: after consuming all pairs, the generated required check passes iff
every required field's id was seen, and otherwise fails with
`RequiredButMissing` wrapped with a missing required field's id (the first
such field in declaration order).  A successfully decoded pair whose id
matches a required field marks it seen (third conjunct).  The closed
conjuncts replay the spec's schema-widening example: `MessageV1 { f0: 1,
f1: None }` encodes with field `1` omitted, and decoding those bytes as
`MessageV2` (which adds required field id 2) fails with the
missing-required-field error annotated with field id 2. -/
theorem c3_required_field_enforcement {S : Type} (fields : List (RField S)) (seen : List Nat) :
    ((∀ f ∈ fields, f.required = true → f.id ∈ seen) → check_required fields seen = .ok ()) ∧
    ((∃ f ∈ fields, f.required = true ∧ f.id ∉ seen) →
      ∃ g ∈ fields, g.required = true ∧ g.id ∉ seen ∧
        check_required fields seen = .error (LBSError.RequiredButMissing.with_field g.id)) ∧
    (∀ (f : RField S) (n : Nat) (s s2 : S) (tail rest2 : Bytes),
      f.id < 2 ^ 16 → find_active fields f.id = some f → f.required = true →
      f.read s tail = .ok (s2, rest2) →
      read_pairs fields (n + 1) s seen (write_field_id f.id ++ tail) =
        read_pairs fields n s2 (f.id :: seen) rest2) ∧
    (messageV1_write ⟨1, none⟩ = .ok [1, 0, 0, 0, 1, 0, 0, 0, 0, 0, 0, 0] ∧
     messageV2_read [1, 0, 0, 0, 1, 0, 0, 0, 0, 0, 0, 0] =
       .error (.WithField 2 .RequiredButMissing)) := by
  refine ⟨check_required_ok fields seen, check_required_missing fields seen, ?_, rfl, rfl⟩
  intro f n s s2 tail rest2 hid hfind hreq hread
  rw [read_pairs]
  simp only [read_field_id_append f.id tail hid, hfind, hread, hreq, if_true]

/-- Witness for C3: on the `MessageV2` schema with both required ids (0 and
2) seen, the check passes. -/
theorem c3_required_field_enforcement_witness :
    check_required MessageV2_read_fields [0, 2] = .ok () :=
  (c3_required_field_enforcement MessageV2_read_fields [0, 2]).1
    (by
      intro f hf hreq
      rcases List.mem_cons.mp hf with rfl | hf2
      · decide
      · rcases List.mem_cons.mp hf2 with rfl | hf3
        · exact Bool.noConfusion hreq
        · rcases List.mem_cons.mp hf3 with rfl | hf4
          · decide
          · cases hf4)

/-- C4: the generated record encode writes a fixed-width 16-bit count `N`
of the non-skipped fields whose value must be written (not default), then
each such pair — 16-bit field id followed by the value encoding — in
declaration order; skipped fields are never written and never counted
(first conjunct: the encoding only depends on the non-skipped fields), and
a record whose every field is default encodes as exactly the two zero
count bytes (second conjunct generally, last conjunct concretely for
`MessageV1`). -/
theorem c4_record_encode_layout {S : Type} (fields : List (WField S)) (s : S) :
    (record_write fields s = record_write (fields.filter (fun f => !f.skip)) s) ∧
    ((∀ f ∈ fields, f.skip = false → f.must_write s = false) →
      record_write fields s = .ok [0, 0]) ∧
    (∀ g : WField S → Bytes,
      (∀ f ∈ fields, f.must_write s = true → f.write s = .ok (g f)) →
      record_write fields s =
        .ok (write_field_count
              (((fields.filter (fun f => !f.skip)).filter (fun f => f.must_write s)).length) ++
            (((fields.filter (fun f => !f.skip)).filter (fun f => f.must_write s)).map
              (fun f => write_field_id f.id ++ g f)).flatten)) ∧
    messageV1_write ⟨0, none⟩ = .ok [0, 0] := by
  refine ⟨?_, ?_, ?_, rfl⟩
  · simp [record_write, List.filter_filter]
  · intro h
    have hempty : (fields.filter (fun f => !f.skip)).filter (fun f => f.must_write s) = [] := by
      apply List.filter_eq_nil_iff.mpr
      intro f hf
      rcases List.mem_filter.mp hf with ⟨hmem, hskip⟩
      simp [h f hmem (by simpa using hskip)]
    simp [record_write, hempty, write_field_count, write_primitive, to_le_bytes]
  · intro g hg
    set active := fields.filter (fun f => !f.skip) with hactive
    have hact : ∀ f ∈ active, f.must_write s = true → f.write s = .ok (g f) := by
      intro f hf
      exact hg f (List.mem_of_mem_filter hf)
    have hpairs := write_pairs_join s g active hact
    by_cases hn : 0 < (active.filter (fun f => f.must_write s)).length
    · simp only [record_write, ← hactive, if_pos hn, hpairs]
    · have hempty : active.filter (fun f => f.must_write s) = [] :=
        List.length_eq_zero.mp (by omega)
      simp [record_write, ← hactive, hempty]

/-- Witness for C4: every field of `MessageV1 { f0 := 0, f1 := none }` is
default, so the encoding is exactly the two zero count bytes. -/
theorem c4_record_encode_layout_witness :
    record_write MessageV1_write_fields (⟨0, none⟩ : MessageV1) = .ok [0, 0] :=
  (c4_record_encode_layout MessageV1_write_fields ⟨0, none⟩).2.1
    (by
      intro f hf hskip
      rcases List.mem_cons.mp hf with rfl | hf2
      · decide
      · rcases List.mem_cons.mp hf2 with rfl | hf3
        · decide
        · cases hf3)

/-- C5 counterexample: the claim states `lbs_is_default` returns `false`
for every ownership-wrapped value and every range value; but `Box<u64>`
containing `0` is default (the impl delegates to the wrapped value) and
the empty range `3..3` is default (the impl is `is_empty`). -/
theorem c5_counterexample :
    box_is_default u64_is_default 0 = true ∧ range_is_default 3 3 = true :=
  ⟨rfl, rfl⟩

/-- C5 amended: the is-default predicate of the ownership wrappers (Box,
Rc, Arc, Cow) delegates to the wrapped value, and that of a range is its
emptiness, so such record fields ARE subject to default-omission exactly
when the wrapped value is default or the range is empty: a record whose
`Box<u64>` field wraps `0` and whose `Range<u64>` field is empty encodes
as the bare zero field count, while non-default wrapped values are
written in full. -/
theorem c5_is_default_delegates :
    (∀ (α : Type) (inner : α → Bool) (v : α),
      box_is_default inner v = inner v ∧ rc_is_default inner v = inner v ∧
      arc_is_default inner v = inner v ∧ cow_is_default inner v = inner v) ∧
    (∀ st en : Nat, range_is_default st en = true ↔ en ≤ st) ∧
    boxRangeMsg_write ⟨0, 3, 3⟩ = .ok [0, 0] ∧
    boxRangeMsg_write ⟨7, 1, 4⟩ =
      .ok (write_field_count 2 ++
        ((write_field_id 0 ++ write_primitive 8 7) ++ ((write_field_id 1 ++ range_lbs_write 1 4) ++ []))) := by
  refine ⟨fun α inner v => ⟨rfl, rfl, rfl, rfl⟩, ?_, rfl, rfl⟩
  intro st en
  simp [range_is_default, Nat.not_lt]

/-- Witness for C5 (amended) at the concrete empty range `5..5`. -/
theorem c5_is_default_delegates_witness : range_is_default 5 5 = true :=
  (c5_is_default_delegates.2.1 5 5).mpr (Nat.le_refl 5)

/-- C6 counterexample: the claim states schema generation succeeds for
declarations without explicit ids, assigning the ordinal position; but
`Meta::validated` rejects (panics on) a field declaration carrying no
explicit id. -/
theorem c6_counterexample :
    gather_struct_meta [⟨none, false, false, false, false⟩] = .error no_id_message :=
  rfl

/-- C6 amended: the assigned id is always the explicitly declared one — a
declaration list whose fields all carry pairwise-distinct explicit ids
generates metas with exactly those ids, in order — and a field or variant
without an explicit id is rejected at schema-generation time (there is no
ordinal fallback). -/
theorem c6_explicit_ids_only :
    (∀ (ds : List FieldDecl) (ids : List Nat),
      ds.map FieldDecl.explicitId = ids.map some → ids.Nodup →
      ∃ ms, gather_struct_meta ds = .ok ms ∧ ms.map StructMeta.id = ids) ∧
    (∀ d : FieldDecl, d.explicitId = none → from_struct_field d = .error no_id_message) := by
  constructor
  · have go : ∀ (ds : List FieldDecl) (ids : List Nat) (used : List Nat),
        ds.map FieldDecl.explicitId = ids.map some → ids.Nodup →
        (∀ i ∈ ids, i ∉ used) →
        ∃ ms, gather_go ds used = .ok ms ∧ ms.map StructMeta.id = ids := by
      intro ds
      induction ds with
      | nil =>
        intro ids used hmap _ _
        have : ids = [] := by
          cases ids with
          | nil => rfl
          | cons i is => simp at hmap
        subst this
        exact ⟨[], rfl, rfl⟩
      | cons d ds ih =>
        intro ids used hmap hnodup hdisj
        cases ids with
        | nil => simp at hmap
        | cons i is =>
          simp only [List.map_cons, List.cons.injEq] at hmap
          obtain ⟨hdi, hmap2⟩ := hmap
          have hnotused : used.contains i = false := by
            rw [Bool.eq_false_iff]
            intro hc
            exact hdisj i (List.mem_cons_self i is) (List.mem_of_elem_eq_true hc)
          have hdisj2 : ∀ j ∈ is, j ∉ i :: used := by
            intro j hj
            rw [List.mem_cons]
            rintro (rfl | hju)
            · exact (List.nodup_cons.mp hnodup).1 hj
            · exact hdisj j (List.mem_cons_of_mem i hj) hju
          obtain ⟨ms, hms, hmsid⟩ :=
            ih is (i :: used) hmap2 (List.nodup_cons.mp hnodup).2 hdisj2
          refine ⟨⟨i, meta_required d, d.skip, d.hasDefault⟩ :: ms, ?_, by simp [hmsid]⟩
          simp only [gather_go, from_struct_field, hdi, hnotused, Bool.false_eq_true,
            if_false, hms]
    intro ds ids hmap hnodup
    exact go ds ids [] hmap hnodup (by simp)
  · intro d h
    simp [from_struct_field, h]

/-- Witness for C6 (amended): two fields with explicit ids 5 and 3 generate
metas carrying exactly ids 5 and 3. -/
theorem c6_explicit_ids_only_witness :
    ∃ ms, gather_struct_meta
        [⟨some 5, false, false, false, false⟩, ⟨some 3, true, false, false, true⟩] = .ok ms ∧
      ms.map StructMeta.id = [5, 3] :=
  c6_explicit_ids_only.1
    [⟨some 5, false, false, false, false⟩, ⟨some 3, true, false, false, true⟩] [5, 3]
    rfl (by decide)

/-- C7 counterexample: the claim states a field with an explicit
`default(expr)` attribute is classified optional and its absence does not
fail decode; but `Meta::from_struct_field` ignores the default when
computing `required`, so the plain field `{ id: 2, default(7) }` is
required, and decoding a `MessageV2` whose `f2` carries `default(7)` from
a record lacking field 2 fails with the missing-required-field error. -/
theorem c7_counterexample :
    meta_required ⟨some 2, false, false, true, false⟩ = true ∧
    from_struct_field ⟨some 2, false, false, true, false⟩ = .ok ⟨2, true, false, true⟩ ∧
    messageV2_default_read [1, 0, 0, 0, 1, 0, 0, 0, 0, 0, 0, 0] =
      .error (.WithField 2 .RequiredButMissing) :=
  ⟨rfl, rfl, rfl⟩

/-- C7 amended: a struct field is classified required exactly when it is
not marked skip, not marked explicitly optional, and its declared type is
not an `Option`; an explicit `default(expr)` attribute does not affect the
classification (it only changes the decoder's field initialization), so
such a field stays required and its absence on the wire fails decode. -/
theorem c7_required_ignores_default :
    (∀ d : FieldDecl, meta_required d = true ↔
      (d.skip = false ∧ d.optional = false ∧ d.typeIsOption = false)) ∧
    (∀ (eid : Option Nat) (sk op tio b1 b2 : Bool),
      meta_required ⟨eid, sk, op, b1, tio⟩ = meta_required ⟨eid, sk, op, b2, tio⟩) ∧
    messageV2_default_read [1, 0, 0, 0, 1, 0, 0, 0, 0, 0, 0, 0] =
      .error (.WithField 2 .RequiredButMissing) := by
  refine ⟨?_, fun eid sk op tio b1 b2 => rfl, rfl⟩
  intro d
  simp [meta_required, Bool.and_eq_true, Bool.not_eq_true', and_assoc]

/-- Witness for C7 (amended): a plain field declaration is required. -/
theorem c7_required_ignores_default_witness :
    meta_required ⟨some 0, false, false, false, false⟩ = true :=
  (c7_required_ignores_default.1 ⟨some 0, false, false, false, false⟩).mpr ⟨rfl, rfl, rfl⟩

/-!  Claim C1: round trip through the tagged record and tagged variant
codecs. -/

theorem pow_conv (x : Nat) (h : x < 2 ^ 64) : x < 256 ^ 8 := by
  norm_num at h ⊢
  omega

theorem messageV1_write_none (f0 : Nat) (h : (f0 == 0) = false) :
    messageV1_write ⟨f0, none⟩ =
      .ok (write_field_count 1 ++ (write_field_id 0 ++ write_primitive 8 f0)) := by
  simp [messageV1_write, record_write, MessageV1_write_fields, write_pairs,
    u64_is_default, option_is_default, h]

theorem messageV1_write_some (f0 x : Nat) (h : (f0 == 0) = false) :
    messageV1_write ⟨f0, some x⟩ =
      .ok (write_field_count 2 ++ (write_field_id 0 ++ (write_primitive 8 f0 ++
        (write_field_id 1 ++ (write_primitive 1 1 ++ write_primitive 8 x))))) := by
  simp [messageV1_write, record_write, MessageV1_write_fields, write_pairs,
    u64_is_default, option_is_default, option_lbs_write, h, List.append_assoc]

theorem messageV1_read_none (f0 : Nat) (hf : f0 < 256 ^ 8) :
    messageV1_read (write_field_count 1 ++ (write_field_id 0 ++ write_primitive 8 f0)) =
      .ok (⟨f0, none⟩, []) := by
  have h1 : read_field_count (write_field_count 1 ++ (write_field_id 0 ++ write_primitive 8 f0)) =
      .ok (1, write_field_id 0 ++ write_primitive 8 f0) :=
    read_primitive_append 2 1 _ (by norm_num)
  have h2 : read_field_id (write_field_id 0 ++ write_primitive 8 f0) =
      .ok (0, write_primitive 8 f0) :=
    read_primitive_append 2 0 _ (by norm_num)
  have h3 : read_primitive 8 (write_primitive 8 f0) = .ok (f0, []) := by
    have := read_primitive_append 8 f0 [] hf
    simpa using this
  have hfind : find_active MessageV1_read_fields 0 = some ⟨0, true, false, m1_rd_f0⟩ := rfl
  have h4 : check_required MessageV1_read_fields [0] = .ok () := rfl
  simp [messageV1_read, record_read, h1, read_pairs, h2, hfind, m1_rd_f0, h3, h4]

theorem messageV1_read_some (f0 x : Nat) (hf : f0 < 256 ^ 8) (hx : x < 256 ^ 8) :
    messageV1_read (write_field_count 2 ++ (write_field_id 0 ++ (write_primitive 8 f0 ++
        (write_field_id 1 ++ (write_primitive 1 1 ++ write_primitive 8 x))))) =
      .ok (⟨f0, some x⟩, []) := by
  have h1 : read_field_count (write_field_count 2 ++ (write_field_id 0 ++ (write_primitive 8 f0 ++
      (write_field_id 1 ++ (write_primitive 1 1 ++ write_primitive 8 x))))) =
      .ok (2, write_field_id 0 ++ (write_primitive 8 f0 ++
        (write_field_id 1 ++ (write_primitive 1 1 ++ write_primitive 8 x)))) :=
    read_primitive_append 2 2 _ (by norm_num)
  have h2 : read_field_id (write_field_id 0 ++ (write_primitive 8 f0 ++
      (write_field_id 1 ++ (write_primitive 1 1 ++ write_primitive 8 x)))) =
      .ok (0, write_primitive 8 f0 ++
        (write_field_id 1 ++ (write_primitive 1 1 ++ write_primitive 8 x))) :=
    read_primitive_append 2 0 _ (by norm_num)
  have h3 : read_primitive 8 (write_primitive 8 f0 ++
      (write_field_id 1 ++ (write_primitive 1 1 ++ write_primitive 8 x))) =
      .ok (f0, write_field_id 1 ++ (write_primitive 1 1 ++ write_primitive 8 x)) :=
    read_primitive_append 8 f0 _ hf
  have h4 : read_field_id (write_field_id 1 ++ (write_primitive 1 1 ++ write_primitive 8 x)) =
      .ok (1, write_primitive 1 1 ++ write_primitive 8 x) :=
    read_primitive_append 2 1 _ (by norm_num)
  have h6 : read_primitive 8 (write_primitive 8 x) = .ok (x, []) := by
    have := read_primitive_append 8 x [] hx
    simpa using this
  have e1 : write_primitive 1 1 = [1] := rfl
  have h5 : option_lbs_read (read_primitive 8) (write_primitive 1 1 ++ write_primitive 8 x) =
      .ok (some x, []) := by
    rw [e1]
    simp [option_lbs_read, read_exact, from_le_bytes, h6]
  have hfind0 : find_active MessageV1_read_fields 0 = some ⟨0, true, false, m1_rd_f0⟩ := rfl
  have hfind1 : find_active MessageV1_read_fields 1 = some ⟨1, false, false, m1_rd_f1⟩ := rfl
  have h7 : check_required MessageV1_read_fields [0] = .ok () := rfl
  simp [messageV1_read, record_read, h1, read_pairs, h2, h3, h4, h5, hfind0, hfind1,
    m1_rd_f0, m1_rd_f1, h7]

/-- C1 counterexample: the round trip fails on `MessageV1 { f0 := 0,
f1 := none }` — `f0` is required but default, so the encoder omits it
(field count 0) and the decoder then fails with the missing-required-field
error instead of returning the value. -/
theorem c1_counterexample :
    messageV1_roundtrip ⟨0, none⟩ = .error (.WithField 0 .RequiredButMissing) ∧
    messageV1_roundtrip ⟨0, none⟩ ≠ .ok (⟨0, none⟩, []) :=
  ⟨rfl, fun h => Except.noConfusion h⟩

/-- C1 amended: decoding the encoding of a record value yields the value
back (every field compared by value, the byte stream fully consumed)
provided every required field of the value is non-default — shown for the
`MessageV1` schema (required `u64` plus optional `u64`) for all in-range
field values — and decoding the encoding of a tagged-union value yields
the value back unconditionally, shown for `EnumE` (payload-free and
`u64`-payload variants). -/
theorem c1_roundtrip :
    (∀ v : MessageV1, v.f0 < 2 ^ 64 → v.f0 ≠ 0 → (∀ x, v.f1 = some x → x < 2 ^ 64) →
      messageV1_roundtrip v = .ok (v, [])) ∧
    (∀ e : EnumE, (∀ x, e = .B x → x < 2 ^ 64) → enumE_read (enumE_write e) = .ok (e, [])) := by
  constructor
  · rintro ⟨f0, f1⟩ hf0 hne hx
    have hf0' : f0 < 256 ^ 8 := pow_conv f0 hf0
    have hbeq : (f0 == 0) = false := beq_eq_false_iff_ne.mpr hne
    cases f1 with
    | none =>
      simp only [messageV1_roundtrip, messageV1_write_none f0 hbeq]
      exact messageV1_read_none f0 hf0'
    | some x =>
      have hx' : x < 256 ^ 8 := pow_conv x (hx x rfl)
      simp only [messageV1_roundtrip, messageV1_write_some f0 x hbeq]
      exact messageV1_read_some f0 x hf0' hx'
  · intro e he
    cases e with
    | A => rfl
    | B x =>
      have hx : x < 256 ^ 8 := pow_conv x (he x rfl)
      have h1 : read_field_id (write_field_id 1 ++ write_primitive 8 x) =
          .ok (1, write_primitive 8 x) :=
        read_primitive_append 2 1 _ (by norm_num)
      have h2 : read_primitive 8 (write_primitive 8 x) = .ok (x, []) := by
        have := read_primitive_append 8 x [] hx
        simpa using this
      simp [enumE_read, enumE_write, h1, h2]

/-- Witness for C1 (amended) at `MessageV1 { f0 := 1, f1 := some 2 }`. -/
theorem c1_roundtrip_witness : messageV1_roundtrip ⟨1, some 2⟩ = .ok (⟨1, some 2⟩, []) :=
  c1_roundtrip.1 ⟨1, some 2⟩ (by norm_num) (by decide)
    (fun x hx => by simp only [Option.some.injEq] at hx; omega)
